import Mathlib

/-!
Shallow embedding of the autolv control/value model (`src/autolv/datatypes.py`)
and of the exported-VI-strings repair pipeline (`src/autolv/vistrings.py`),
together with theorems settling the specification claims about them.

Python values are embedded as the inductive `PyVal`; Python exceptions as
`PyErr`.  Mutating methods are embedded as functions returning
`Option PyErr × state`: the first component is the exception raised (if any)
and the second is the state of the object after the call, so that partial
mutation before an exception is captured faithfully.
-/

set_option maxRecDepth 4000

namespace AutoLV

/-- Embedding of the Python values exchanged with the control model.
Rationals stand in for Python floats.  Python `bool` is a subclass of `int`,
so the predicates below classify booleans as numbers and as integers, exactly
as `isinstance(x, Number)` and `isinstance(x, int)` do in the source. -/
inductive PyVal where
  | int (n : Int)
  | float (q : Rat)
  | bool (b : Bool)
  | str (s : String)
  | tuple (vs : List PyVal)
  | list (vs : List PyVal)
  | dict (kvs : List (String × PyVal))
  | pynone

/-- `isinstance(v, numbers.Number)`. -/
def isNumber : PyVal → Bool
  | .int _ => true
  | .float _ => true
  | .bool _ => true
  | _ => false

/-- `isinstance(v, bool)`. -/
def isBool : PyVal → Bool
  | .bool _ => true
  | _ => false

/-- `isinstance(v, str)`. -/
def isStr : PyVal → Bool
  | .str _ => true
  | _ => false

/-- `isinstance(v, int)` (true for Python booleans as well). -/
def isInt : PyVal → Bool
  | .int _ => true
  | .bool _ => true
  | _ => false

/-- Python whitespace as used by `str.strip` and `\s`. -/
def isPySpace (c : Char) : Bool :=
  c = ' ' || c = '\t' || c = '\n' || c = '\r' || c = '\x0b' || c = '\x0c'

def digitsToInt (ds : List Char) : Int :=
  ds.foldl (fun a c => a * 10 + ((c.toNat : Int) - 48)) 0

/-- Model of the builtin `int(s)` on strings: optional surrounding
whitespace, an optional sign, then a nonempty digit run (digit-group
underscores are not modelled). Returns `none` where `int` raises
`ValueError`. -/
def pyParseInt (s : String) : Option Int :=
  let cs := ((s.data.dropWhile isPySpace).reverse.dropWhile isPySpace).reverse
  match cs with
  | [] => none
  | c :: rest =>
    let body := if c = '-' ∨ c = '+' then rest else c :: rest
    let sign : Int := if c = '-' then -1 else 1
    if body ≠ [] ∧ body.all Char.isDigit then some (sign * digitsToInt body)
    else none

/-- Embedding of the exceptions raised by the model.  `autoLVval` is an
`AutoLVError` whose message interpolates the rejected value (for example
`f"'{new_value}' not a number"`); `autoLVmsg` an `AutoLVError` with a plain
message; the rest mirror the builtin exception classes. -/
inductive PyErr where
  | autoLVval (rejected : PyVal) (msg : String)
  | autoLVmsg (msg : String)
  | keyError (key : String)
  | valueError (rejected : String)
  | typeError (msg : String)
  | notImplemented (msg : String)

/-- Which exceptions an `except AutoLVError` clause catches. -/
def PyErr.isAutoLV : PyErr → Bool
  | .autoLVval _ _ => true
  | .autoLVmsg _ => true
  | _ => false

/-- The scalar control variants of `datatypes.py`, each carrying its
current `_value`.  `ring` additionally carries its immutable `_items`
list; `tab` is `TabControl` (whose value setter discards its argument)
and `notimpl` is `NotImplControl`. -/
inductive Ctl where
  | numeric (v : PyVal)
  | boolean (v : PyVal)
  | string (v : PyVal)
  | enum (v : PyVal)
  | ring (items : List String) (v : PyVal)
  | iorefnum (v : PyVal)
  | tab (v : PyVal)
  | notimpl (v : PyVal)

/-- The `value` property getter: every variant returns its stored `_value`. -/
def Ctl.getValue : Ctl → PyVal
  | .numeric v => v
  | .boolean v => v
  | .string v => v
  | .enum v => v
  | .ring _ v => v
  | .iorefnum v => v
  | .tab v => v
  | .notimpl v => v

/-- The `supported` property: `LV_Control.__init__` sets `_supported = True`
and `NotImplControl.__init__` overrides it to `False`. -/
def Ctl.supported : Ctl → Bool
  | .notimpl _ => false
  | _ => true

/-- The `value` property setters, translated clause by clause:

* `Numeric`: rejects non-`Number` values;
* `Boolean`: rejects non-`bool` values;
* `String`: rejects non-`str` values;
* `Enum`: converts a string through `int(value)` (`ValueError` when it does
  not parse), then rejects values that are not `int`;
* `Ring`: resolves a string through `self.items.index(value)` (`ValueError`
  when absent) and stores every non-string argument unvalidated;
* `IORefNum`: promotes a bare string to `(s, 0)` and rejects non-tuples;
* `TabControl` and `NotImplControl`: discard the argument and store `None`. -/
def Ctl.setValue : Ctl → PyVal → Option PyErr × Ctl
  | .numeric cur, v =>
    if isNumber v then (none, .numeric v)
    else (some (.autoLVval v "not a number"), .numeric cur)
  | .boolean cur, v =>
    if isBool v then (none, .boolean v)
    else (some (.autoLVval v "not a boolean"), .boolean cur)
  | .string cur, v =>
    if isStr v then (none, .string v)
    else (some (.autoLVval v "not a string"), .string cur)
  | .enum cur, v =>
    match v with
    | .str s =>
      match pyParseInt s with
      | some n => (none, .enum (.int n))
      | none => (some (.valueError s), .enum cur)
    | _ =>
      if isInt v then (none, .enum v)
      else (some (.autoLVval v "not an integer"), .enum cur)
  | .ring items cur, v =>
    match v with
    | .str s =>
      match List.findIdx? (fun t => t == s) items with
      | some i => (none, .ring items (.int i))
      | none => (some (.valueError s), .ring items cur)
    | _ => (none, .ring items v)
  | .iorefnum cur, v =>
    match v with
    | .str s => (none, .iorefnum (.tuple [.str s, .int 0]))
    | .tuple vs => (none, .iorefnum (.tuple vs))
    | _ => (some (.autoLVval v "not a tuple of str and int"), .iorefnum cur)
  | .tab _, _ => (none, .tab .pynone)
  | .notimpl _, _ => (none, .notimpl .pynone)

/-- The control kinds the registry can name (the classes of
`datatypes.py`). -/
inductive CtlKind where
  | numeric
  | boolean
  | string
  | path
  | timestamp
  | enum
  | ivilogicalname
  | visaresourcename
  | sharedvariable
  | udrefnum
  | ring
  | array
  | cluster
  | arraycluster
  | waveformgraph
  | tab
  | notimpl
  deriving DecidableEq

/-- The control type registry `LVControl_LU`, entry for entry. -/
def LVControl_LU : List (String × CtlKind) :=
  [("Numeric", .numeric),
   ("Boolean", .boolean),
   ("String", .string),
   ("Path", .path),
   ("Time Stamp", .timestamp),
   ("Enum", .enum),
   ("IVI Logical Name", .ivilogicalname),
   ("Slide", .numeric),
   ("Array", .array),
   ("Cluster", .cluster),
   ("Measurement Data", .notimpl),
   ("Classic DAQmx Physical Channel", .string),
   ("VISA resource name", .visaresourcename),
   ("Classic Shared Variable Control", .sharedvariable),
   ("Ring", .ring),
   ("User Defined Refnum Tag", .udrefnum),
   ("Waveform Graph", .waveformgraph),
   ("XY Graph", .array),
   ("Waveform Chart", .array),
   ("Tab Control", .tab),
   ("ArrayCluster", .arraycluster)]

/-- `make_control`: `LVControl_LU.get(control_type, NotImplControl)`.  The
dispatch is total, so one unrecognized declared type never prevents sibling
controls from being constructed. -/
def make_control (control_type : String) : CtlKind :=
  (LVControl_LU.lookup control_type).getD .notimpl

/-! ### The read-only attribute mechanism of `LV_Control` -/

/-- `READONLY_ATTRIBUTES`, entry for entry. -/
def READONLY_ATTRIBUTES : List String :=
  ["ID", "type", "name", "description", "tip", "caption", "unitlabel", "pages"]

/-- Assignment into a Python `dict` (`d[k] = v`): replaces in place when the
key is present, otherwise appends, preserving insertion order. -/
def dictSet {α : Type} (d : List (String × α)) (k : String) (v : α) :
    List (String × α) :=
  if (d.lookup k).isSome then d.map fun p => if p.1 = k then (k, v) else p
  else d ++ [(k, v)]

/-- `LV_Control.__setattr__`: raises `AutoLVError` when the attribute is
already in `__dict__` and is listed in `READONLY_ATTRIBUTES`; otherwise
stores the value. -/
def lvSetattr (d : List (String × PyVal)) (item : String) (v : PyVal) :
    Option PyErr × List (String × PyVal) :=
  if (d.lookup item).isSome ∧ item ∈ READONLY_ATTRIBUTES then
    (some (.autoLVmsg ("cannot set " ++ item)), d)
  else (none, dictSet d item v)

/-- `LV_Control.__init__`: pops `name` (a `KeyError` when missing), then
walks `READONLY_ATTRIBUTES` storing each attribute present among the keyword
arguments (`name` was already popped, so its `setattr` is skipped), and
finally initializes `_dataflow` (`UNKNOWN = 3`), `_supported` and
`_value`. -/
def lvInit (kwargs : List (String × PyVal)) :
    Except PyErr (List (String × PyVal)) :=
  match kwargs.lookup "name" with
  | none => .error (.keyError "name")
  | some nv =>
    let kw := kwargs.filter fun p => !(p.1 == "name")
    let d1 := READONLY_ATTRIBUTES.foldl (fun d attr =>
      match kw.lookup attr with
      | some v => (lvSetattr d attr v).2
      | none => d) [("name", nv)]
    .ok (d1 ++ [("_dataflow", .int 3), ("_supported", .bool true),
                ("_value", .pynone)])

/-! ### Cluster -/

/-- `Cluster`: an insertion-ordered, name-keyed collection of member
controls (`self._ctrls`). -/
structure Cluster where
  ctrls : List (String × Ctl)

/-- The `Cluster.value` getter: the members' values as a tuple, in current
member order. -/
def Cluster.value (c : Cluster) : PyVal :=
  .tuple (c.ctrls.map fun p => p.2.getValue)

/-- Loop body of `Cluster.update`: `self._ctrls[name].value = controls[name]`
for each entry in order; a missing name raises `KeyError` and a member
setter error propagates, in both cases keeping the mutations already
made. -/
def updateAux : List (String × Ctl) → List (String × PyVal) →
    Option PyErr × List (String × Ctl)
  | ctrls, [] => (none, ctrls)
  | ctrls, (n, v) :: kvs =>
    match ctrls.lookup n with
    | none => (some (.keyError n), ctrls)
    | some ctl =>
      match ctl.setValue v with
      | (some e, _) => (some e, ctrls)
      | (none, ctl2) => updateAux (dictSet ctrls n ctl2) kvs

/-- `Cluster.update`. -/
def Cluster.update (c : Cluster) (kvs : List (String × PyVal)) :
    Option PyErr × Cluster :=
  let r := updateAux c.ctrls kvs
  (r.1, ⟨r.2⟩)

/-- The positional loop `for c, v in zip(self._ctrls, new_value)`: members
are assigned in order until the values (or the members) run out; the first
setter error stops the loop, keeping the assignments already made. -/
def setSeqAux : List (String × Ctl) → List PyVal →
    Option PyErr × List (String × Ctl)
  | ctrls, [] => (none, ctrls)
  | [], _ => (none, [])
  | (n, ctl) :: rest, v :: vs =>
    match ctl.setValue v with
    | (some e, _) => (some e, (n, ctl) :: rest)
    | (none, ctl2) =>
      let r := setSeqAux rest vs
      (r.1, (n, ctl2) :: r.2)

/-- Loop body of `Cluster.reorder_controls`: rebuilds `self._ctrls` from an
empty dict by looking each requested name up in a copy of the old dict; an
absent name raises `KeyError` (leaving the partially rebuilt dict in
place). -/
def reorderGo (old : List (String × Ctl)) :
    List (String × Ctl) → List String → Option PyErr × List (String × Ctl)
  | acc, [] => (none, acc)
  | acc, n :: rest =>
    match old.lookup n with
    | none => (some (.keyError n), acc)
    | some ctl => reorderGo old (dictSet acc n ctl) rest

/-- `Cluster.reorder_controls`. -/
def Cluster.reorder_controls (c : Cluster) (new_order : List String) :
    Option PyErr × Cluster :=
  let r := reorderGo c.ctrls [] new_order
  (r.1, ⟨r.2⟩)

/-- The canonical order of the special three-field error cluster. -/
def errorNames : List String := ["status", "code", "source"]

/-- Python set equality `set(xs) == set(ys)`. -/
def sameNameSet (xs ys : List String) : Bool :=
  xs.all (fun x => ys.contains x) && ys.all (fun y => xs.contains y)

/-- The `else` branch of the `Cluster.value` setter: positional assignment
inside `try`; an `AutoLVError` is caught and, when the member-name set is
exactly `{status, code, source}`, the cluster is reordered to that canonical
order and the positional assignment retried once (a second `AutoLVError`
is re-raised as `f"{new_value} not a valid Cluster value"`); when the name
set does not match, the caught error is silently dropped.  Exceptions other
than `AutoLVError` propagate. -/
def Cluster.setSeqPath (c : Cluster) (orig : PyVal) (vs : List PyVal) :
    Option PyErr × Cluster :=
  match setSeqAux c.ctrls vs with
  | (none, l1) => (none, ⟨l1⟩)
  | (some e, l1) =>
    if e.isAutoLV then
      if sameNameSet (l1.map Prod.fst) errorNames then
        match reorderGo l1 [] errorNames with
        | (some e2, l2) => (some e2, ⟨l2⟩)
        | (none, l2) =>
          match setSeqAux l2 vs with
          | (none, l3) => (none, ⟨l3⟩)
          | (some e3, l3) =>
            if e3.isAutoLV then
              (some (.autoLVval orig "not a valid Cluster value"), ⟨l3⟩)
            else (some e3, ⟨l3⟩)
      else (none, ⟨l1⟩)
    else (some e, ⟨l1⟩)

/-- The `Cluster.value` setter: a `dict` goes through `update`, `None` is a
no-op, an iterable is assigned positionally (a string iterates over its
one-character substrings), and a non-iterable raises `TypeError` from
`zip`. -/
def Cluster.setValue (c : Cluster) (v : PyVal) : Option PyErr × Cluster :=
  match v with
  | .dict kvs => c.update kvs
  | .pynone => (none, c)
  | .tuple vs => c.setSeqPath (.tuple vs) vs
  | .list vs => c.setSeqPath (.list vs) vs
  | .str s => c.setSeqPath (.str s) (s.data.map fun ch => .str (String.mk [ch]))
  | _ => (some (.typeError "zip argument 2 must support iteration"), c)

/-! ### Raggedness detection (`is_ragged`) -/

/-- Nested numeric sequences, the inputs `is_ragged` classifies. -/
inductive Nested where
  | atom (n : Int)
  | seq (xs : List Nested)

/-- The inner helper `_len`: `len(x)` for a sequence, `-1` when `len`
raises `TypeError` (scalars). -/
def nlenI : Nested → Int
  | .atom _ => -1
  | .seq xs => xs.length

mutual

/-- `is_ragged(array, res)`, translated clause by clause: a value with
`_len(array) <= 0` returns `res` unchanged; otherwise `res` is set when
some element's `_len` differs from the first element's, and then every
element is visited recursively, or-ing the results into `res`. -/
def is_ragged : Nested → Bool → Bool
  | .atom _, res => res
  | .seq [], res => res
  | .seq (x :: xs), res =>
    is_raggedL (x :: xs) (res || (x :: xs).any fun e => nlenI e != nlenI x)

/-- The second loop of `is_ragged`:
`for element in array: res = res or is_ragged(element, res)`. -/
def is_raggedL : List Nested → Bool → Bool
  | [], res => res
  | e :: es, res => is_raggedL es (res || is_ragged e res)

end

/-- The length notion of the specification: a scalar has no length. -/
def nlen : Nested → Option Nat
  | .atom _ => none
  | .seq xs => some xs.length

/-- Two sibling elements of `xs` differ in length. -/
def pairDiff (xs : List Nested) : Bool :=
  xs.any fun a => xs.any fun b => nlen a != nlen b

mutual

/-- Modelled from the spec: a nested sequence is ragged exactly when some
two sibling elements at the same nesting depth differ in length, checked
recursively. -/
def specRagged : Nested → Bool
  | .atom _ => false
  | .seq xs => pairDiff xs || specRaggedL xs

/-- Some element of the list is ragged. -/
def specRaggedL : List Nested → Bool
  | [] => false
  | e :: es => specRagged e || specRaggedL es

end

/-! ### The VI-strings repair pipeline (`vistrings.py`)

Each `re.subn`-driven pass is embedded as a left-to-right scan over the
character list: at each position the pass either recognizes a leftmost
(lazy-minimal, as the patterns use `.*?`) match, emits its replacement and
continues after the match, or copies one character and moves on.  The fuel
argument of `scanRepl` is the input length; every step consumes at least one
character, so the fuel never runs out on the inputs used. -/

def strChars (s : String) : List Char := s.data

/-- Generic `re.subn`-style scan: `step` returns the replacement and the
(positive) number of characters the match consumed. -/
def scanRepl (step : List Char → Option (List Char × Nat)) :
    Nat → List Char → List Char
  | 0, cs => cs
  | _, [] => []
  | fuel + 1, c :: cs =>
    match step (c :: cs) with
    | some (repl, k) => repl ++ scanRepl step fuel (List.drop k (c :: cs))
    | none => c :: scanRepl step fuel cs

/-- First index (if any) at which `pat` occurs as a substring (the lazy
`.*?` search under `re.DOTALL`). -/
def findSub (pat : List Char) : List Char → Option Nat
  | [] => if pat = [] then some 0 else none
  | c :: rest =>
    if pat.isPrefixOf (c :: rest) then some 0
    else (findSub pat rest).map (· + 1)

/-- First index at which `pat` occurs, with no newline before it (the lazy
`.*?` search without `re.DOTALL`). -/
def findSubNoNL (pat : List Char) : List Char → Option Nat
  | [] => if pat = [] then some 0 else none
  | c :: rest =>
    if pat.isPrefixOf (c :: rest) then some 0
    else if c = '\n' then none
    else (findSubNoNL pat rest).map (· + 1)

/-- One match of `(<PART .*?type="Text">)(.*?)(</PART>)` (DOTALL), replaced
by group 1 followed by group 3 — `_removeparttext` drops the free-form text
between the opening and closing tags. -/
def stepRemovePartText (cs : List Char) : Option (List Char × Nat) :=
  if (strChars "<PART ").isPrefixOf cs then
    match findSub (strChars "type=\"Text\">") (cs.drop 6) with
    | some i =>
      let e1 := 6 + i + 12
      match findSub (strChars "</PART>") (cs.drop e1) with
      | some j => some (cs.take e1 ++ strChars "</PART>", e1 + j + 7)
      | none => none
    | none => none
  else none

/-- `_removeparttext`. -/
def removeparttext (cs : List Char) : List Char :=
  scanRepl stepRemovePartText cs.length cs

/-- Splits off the shortest run of characters before the first
whitespace-or-`>` character, as matched by `(.*?)([\s>])`. -/
def splitAtStop : List Char → Option (List Char × Char × Nat)
  | [] => none
  | c :: rest =>
    if isPySpace c || c = '>' then some ([], c, 1)
    else
      match splitAtStop rest with
      | some (pre, stop, n) => some (c :: pre, stop, n + 1)
      | none => none

/-- One match of `=(?!")(.*?)([\s>])`, replaced by `="{attr}"{end}` —
`_addquotes` wraps a bare attribute value in quotes. -/
def stepAddQuotes (cs : List Char) : Option (List Char × Nat) :=
  match cs with
  | '=' :: rest =>
    match rest with
    | '"' :: _ => none
    | _ =>
      match splitAtStop rest with
      | some (pre, stop, n) =>
        some ('=' :: '"' :: (pre ++ '"' :: [stop]), 1 + n)
      | none => none
  | _ => none

/-- `_addquotes`. -/
def addquotes (cs : List Char) : List Char :=
  scanRepl stepAddQuotes cs.length cs

/-- One match of `<(</?B>)>`, replaced by the inner tag. -/
def stepDeEmbedB (cs : List Char) : Option (List Char × Nat) :=
  if (strChars "<</B>>").isPrefixOf cs then some (strChars "</B>", 6)
  else if (strChars "<<B>>").isPrefixOf cs then some (strChars "<B>", 5)
  else none

/-- One match of `<(</?append>)>`, replaced by the inner tag. -/
def stepDeEmbedAppend (cs : List Char) : Option (List Char × Nat) :=
  if (strChars "<</append>>").isPrefixOf cs then some (strChars "</append>", 11)
  else if (strChars "<<append>>").isPrefixOf cs then some (strChars "<append>", 10)
  else none

/-- One match of `<<([0-9]+)>>`, replaced by `__digits__`. -/
def stepDeEmbedNum (cs : List Char) : Option (List Char × Nat) :=
  match cs with
  | '<' :: '<' :: rest =>
    let ds := rest.takeWhile Char.isDigit
    if ds ≠ [] ∧ (strChars ">>").isPrefixOf (rest.drop ds.length) then
      some (strChars "__" ++ ds ++ strChars "__", 2 + ds.length + 2)
    else none
  | _ => none

/-- `_de_embed_elements`: the `B` pass, then the `append` pass, then the
numeric placeholder pass. -/
def de_embed_elements (cs : List Char) : List Char :=
  let cs1 := scanRepl stepDeEmbedB cs.length cs
  let cs2 := scanRepl stepDeEmbedAppend cs1.length cs1
  scanRepl stepDeEmbedNum cs2.length cs2

/-- Index of the first `>` ahead, failing at the first newline (the lazy
`.*?>` search without DOTALL). -/
def findGtNoNL : List Char → Option Nat
  | [] => none
  | c :: rest =>
    if c = '>' then some 0
    else if c = '\n' then none
    else (findGtNoNL rest).map (· + 1)

/-- One match of `<ELEM.*?>`, replaced by the match followed by
`</ELEM>`. -/
def stepClose (elemName : List Char) (cs : List Char) :
    Option (List Char × Nat) :=
  if ('<' :: elemName).isPrefixOf cs then
    let k := 1 + elemName.length
    match findGtNoNL (cs.drop k) with
    | some j =>
      let m := k + j + 1
      some (cs.take m ++ ('<' :: '/' :: elemName ++ ['>']), m)
    | none => none
  else none

def closeOne (elemName : String) (cs : List Char) : List Char :=
  scanRepl (stepClose elemName.data) cs.length cs

/-- `_close_elements`: one pass per element name, in source order. -/
def close_elements (cs : List Char) : List Char :=
  closeOne "SEP"
    (closeOne "NON_STRING"
      (closeOne "append"
        (closeOne "SAME_AS_LABEL"
          (closeOne "CRLF"
            (closeOne "LF"
              (closeOne "FONT"
                (closeOne "NO_TITLE" cs)))))))

/-- One match of `<<`, replaced by `&lt;`. -/
def stepLtLt (cs : List Char) : Option (List Char × Nat) :=
  if (strChars "<<").isPrefixOf cs then some (strChars "&lt;", 2) else none

/-- One match of `>>(?!>)`, replaced by `&gt;`. -/
def stepGtGt (cs : List Char) : Option (List Char × Nat) :=
  match cs with
  | '>' :: '>' :: rest =>
    if rest.headD ' ' = '>' then none else some (strChars "&gt;", 2)
  | _ => none

/-- The `.*?[^>]>` tail of the tag pattern: number of characters of the
shortest completion (the `.*?` characters may not cross a newline; the
`[^>]` character may). -/
def tagTail : List Char → Option Nat
  | a :: b :: rest =>
    if a ≠ '>' ∧ b = '>' then some 2
    else if a = '\n' then none
    else (tagTail (b :: rest)).map (· + 1)
  | _ => none

/-- Length of a match of the tag-recognition pattern `<[^<]/?.*?[^>]>` at
the head of the input, trying the greedy `/?` first. -/
def matchTagAt : List Char → Option Nat
  | '<' :: c1 :: rest =>
    if c1 = '<' then none
    else
      match rest with
      | '/' :: rest2 =>
        match tagTail rest2 with
        | some m => some (3 + m)
        | none => (tagTail rest).map (· + 2)
      | _ => (tagTail rest).map (· + 2)
  | _ => none

/-- `re.finditer` of the tag pattern: the non-overlapping half-open spans
`[start, stop)` of every tag, left to right. -/
def findTagSpans : Nat → List Char → Nat → List (Nat × Nat)
  | 0, _, _ => []
  | _, [], _ => []
  | fuel + 1, c :: cs, pos =>
    match matchTagAt (c :: cs) with
    | some m => (pos, pos + m) :: findTagSpans fuel (List.drop m (c :: cs)) (pos + m)
    | none => findTagSpans fuel cs (pos + 1)

/-- Locations of matches of `&(?!lt;|gt;)`. -/
def ampLocs : List Char → Nat → List Nat
  | [], _ => []
  | '&' :: rest, pos =>
    if (strChars "lt;").isPrefixOf rest || (strChars "gt;").isPrefixOf rest
    then ampLocs rest (pos + 1)
    else pos :: ampLocs rest (pos + 1)
  | _ :: rest, pos => ampLocs rest (pos + 1)

/-- Locations of non-overlapping matches of `""`. -/
def quotLocs : List Char → Nat → List Nat
  | '"' :: '"' :: rest, pos => pos :: quotLocs rest (pos + 2)
  | _ :: rest, pos => quotLocs rest (pos + 1)
  | [], _ => []

/-- Membership of a location in one of the closed tag intervals. -/
def inSpans (spans : List (Nat × Nat)) (loc : Nat) : Bool :=
  spans.any fun sp => decide (sp.1 ≤ loc ∧ loc < sp.2)

/-- The two predefined-entity substitutions of `PREDEFINEDS`. -/
inductive SubKind where
  | amp
  | quot

def subLoc : Nat × SubKind → Nat := Prod.fst

def insertByLoc (p : Nat × SubKind) : List (Nat × SubKind) → List (Nat × SubKind)
  | [] => [p]
  | q :: rest => if p.1 ≤ q.1 then p :: q :: rest else q :: insertByLoc p rest

/-- `sorted(tag_span_subs)`. -/
def sortByLoc : List (Nat × SubKind) → List (Nat × SubKind)
  | [] => []
  | p :: rest => insertByLoc p (sortByLoc rest)

/-- Applies the location-sorted substitutions (`&` consumes one character,
`""` two), equivalent to the offset-adjusting loop of the source; `off` is
the absolute position of the head of `cs` in the scanned string. -/
def applySubs (cs : List Char) (off : Nat) : List (Nat × SubKind) → List Char
  | [] => cs
  | (loc, .amp) :: rest =>
    cs.take (loc - off) ++ strChars "&amp;" ++
      applySubs (cs.drop (loc - off + 1)) (loc + 1) rest
  | (loc, .quot) :: rest =>
    cs.take (loc - off) ++ strChars "&quot;" ++
      applySubs (cs.drop (loc - off + 2)) (loc + 2) rest

/-- `_predefinedentities`: doubled angle brackets become entities, then `&`
and `""` occurrences outside recognized tag spans are replaced. -/
def predefinedentities (cs : List Char) : List Char :=
  let cs1 := scanRepl stepLtLt cs.length cs
  let cs2 := scanRepl stepGtGt cs1.length cs1
  let spans := findTagSpans cs2.length cs2 0
  let asubs := ((ampLocs cs2 0).filter fun l => !(inSpans spans l)).map
    fun l => (l, SubKind.amp)
  let qsubs := ((quotLocs cs2 0).filter fun l => !(inSpans spans l)).map
    fun l => (l, SubKind.quot)
  applySubs cs2 0 (sortByLoc (asubs ++ qsubs))

/-- One match of `<B>(.*?)</B>`, replaced by a CDATA block. -/
def stepStyled (cs : List Char) : Option (List Char × Nat) :=
  if (strChars "<B>").isPrefixOf cs then
    match findSubNoNL (strChars "</B>") (cs.drop 3) with
    | some i =>
      some (strChars "<![CDATA[" ++ (cs.drop 3).take i ++ strChars "]]>",
            3 + i + 4)
    | none => none
  else none

/-- `_styledtext`. -/
def styledtext (cs : List Char) : List Char :=
  scanRepl stepStyled cs.length cs

/-- `_vistr2xml`: the six repair passes in their fixed source order. -/
def vistr2xml (cs : List Char) : List Char :=
  styledtext
    (predefinedentities
      (close_elements
        (de_embed_elements
          (addquotes
            (removeparttext cs)))))

/-! ### Helper lemmas -/

theorem lookup_append {α : Type} (l₁ l₂ : List (String × α)) (k : String) :
    (l₁ ++ l₂).lookup k = ((l₁.lookup k).orElse fun _ => l₂.lookup k) := by
  induction l₁ with
  | nil => simp [List.lookup]
  | cons p l ih =>
    obtain ⟨a, b⟩ := p
    cases h : k == a with
    | true => simp [List.lookup, h, Option.orElse]
    | false => simp [List.lookup, h, ih]

theorem any_ext {α : Type} (l : List α) (p q : α → Bool)
    (h : ∀ a ∈ l, p a = q a) : l.any p = l.any q := by
  induction l with
  | nil => rfl
  | cons a as ih =>
    simp only [List.any_cons, h a (List.mem_cons_self a as)]
    rw [ih fun b hb => h b (List.mem_cons_of_mem a hb)]

theorem is_raggedL_true (l : List Nested) : is_raggedL l true = true := by
  induction l with
  | nil => rfl
  | cons e es ih =>
    simp only [is_raggedL, Bool.true_or]
    exact ih

theorem is_ragged_true (x : Nested) : is_ragged x true = true := by
  match x with
  | .atom _ => rfl
  | .seq [] => rfl
  | .seq (y :: ys) =>
    simp only [is_ragged, Bool.true_or]
    exact is_raggedL_true _

theorem is_raggedL_false (l : List Nested) :
    is_raggedL l false = l.any fun e => is_ragged e false := by
  induction l with
  | nil => rfl
  | cons e es ih =>
    simp only [is_raggedL, Bool.false_or, List.any_cons]
    cases h : is_ragged e false with
    | true => simp [is_raggedL_true]
    | false => simp [ih]

theorem specRaggedL_any (l : List Nested) : specRaggedL l = l.any specRagged := by
  induction l with
  | nil => rfl
  | cons e es ih => simp [specRaggedL, ih, List.any_cons]

theorem nlenI_eq_iff (a b : Nested) : nlenI a = nlenI b ↔ nlen a = nlen b := by
  cases a <;> cases b <;> simp [nlenI, nlen]

theorem any_head_iff_pairDiff (x : Nested) (xs : List Nested) :
    ((x :: xs).any fun e => nlenI e != nlenI x) = pairDiff (x :: xs) := by
  rw [Bool.eq_iff_iff]
  simp only [pairDiff, List.any_eq_true, bne_iff_ne, ne_eq]
  constructor
  · rintro ⟨e, he, hne⟩
    exact ⟨e, he, x, List.mem_cons_self x xs,
      fun h => hne ((nlenI_eq_iff e x).mpr h)⟩
  · rintro ⟨a, ha, b, hb, hab⟩
    by_cases hax : nlen a = nlen x
    · refine ⟨b, hb, fun h => hab ?_⟩
      rw [hax, (nlenI_eq_iff b x).mp h]
    · exact ⟨a, ha, fun h => hax ((nlenI_eq_iff a x).mp h)⟩

theorem is_ragged_eq_specRagged : ∀ x : Nested, is_ragged x false = specRagged x := by
  have H : ∀ (n : Nat) (x : Nested), sizeOf x ≤ n →
      is_ragged x false = specRagged x := by
    intro n
    induction n with
    | zero =>
      intro x hx
      exfalso
      cases x <;> simp at hx
    | succ n ih =>
      intro x hx
      match x with
      | .atom _ => rfl
      | .seq [] => rfl
      | .seq (y :: ys) =>
        have hmem : ∀ e ∈ y :: ys, sizeOf e ≤ n := by
          intro e he
          have h1 : sizeOf e < sizeOf (y :: ys) := List.sizeOf_lt_of_mem he
          have h2 : sizeOf (Nested.seq (y :: ys)) = 1 + sizeOf (y :: ys) := by
            simp
          omega
        cases hp : pairDiff (y :: ys) with
        | true =>
          have hany : ((y :: ys).any fun e => nlenI e != nlenI y) = true := by
            rw [any_head_iff_pairDiff]
            exact hp
          simp only [is_ragged, specRagged, hany, hp, Bool.false_or,
            Bool.true_or]
          exact is_raggedL_true _
        | false =>
          have hany : ((y :: ys).any fun e => nlenI e != nlenI y) = false := by
            rw [any_head_iff_pairDiff]
            exact hp
          simp only [is_ragged, specRagged, hany, hp, Bool.false_or]
          rw [is_raggedL_false, specRaggedL_any]
          exact any_ext _ _ _ fun e he => ih e (hmem e he)
  intro x
  exact H (sizeOf x) x le_rfl

/-- C5: the raggedness classifier agrees with the specification predicate
(two siblings at the same nesting depth differing in length, recursively),
and classifies the four specification examples as stated. -/
theorem raggedness_classifier :
    (∀ x : Nested, is_ragged x false = specRagged x)
    ∧ is_ragged (.seq [.atom 1, .atom 2, .atom 3]) false = false
    ∧ is_ragged (.seq [.seq [.atom 1, .atom 2], .seq [.atom 3, .atom 4]]) false
        = false
    ∧ is_ragged (.seq [.atom 1, .atom 2, .seq [.atom 3, .atom 4]]) false = true
    ∧ is_ragged (.seq [.seq [.seq [.atom 1, .atom 2], .seq [.atom 3, .atom 4]],
        .seq [.seq [.atom 1, .atom 2], .seq [.atom 3, .atom 4, .atom 5]]]) false
        = true :=
  ⟨is_ragged_eq_specRagged, by decide, by decide, by decide, by decide⟩

theorem reorderGo_ok (old : List (String × Ctl)) :
    ∀ (order : List String) (acc : List (String × Ctl)),
      order.Nodup →
      (∀ n ∈ order, (old.lookup n).isSome) →
      (∀ n ∈ order, acc.lookup n = none) →
      (reorderGo old acc order).1 = none
      ∧ ((reorderGo old acc order).2).map Prod.fst = acc.map Prod.fst ++ order
      ∧ (∀ n ∈ order, ((reorderGo old acc order).2).lookup n = old.lookup n)
      ∧ (∀ n v, acc.lookup n = some v →
          ((reorderGo old acc order).2).lookup n = some v) := by
  intro order
  induction order with
  | nil =>
    intro acc _ _ _
    refine ⟨rfl, by simp [reorderGo], ?_, ?_⟩
    · intro n hn
      cases hn
    · intro n v hv
      simpa [reorderGo] using hv
  | cons m rest ih =>
    intro acc hnd hold hacc
    obtain ⟨ctl, hctl⟩ :=
      Option.isSome_iff_exists.mp (hold m (List.mem_cons_self m rest))
    have haccm : acc.lookup m = none := hacc m (List.mem_cons_self m rest)
    have hds : dictSet acc m ctl = acc ++ [(m, ctl)] := by
      simp [dictSet, haccm]
    have hnd2 : rest.Nodup := hnd.of_cons
    have hmrest : m ∉ rest := (List.nodup_cons.mp hnd).1
    have hold2 : ∀ n ∈ rest, (old.lookup n).isSome :=
      fun n hn => hold n (List.mem_cons_of_mem m hn)
    have hacc2 : ∀ n ∈ rest, (acc ++ [(m, ctl)]).lookup n = none := by
      intro n hn
      rw [lookup_append]
      have h1 : acc.lookup n = none := hacc n (List.mem_cons_of_mem m hn)
      have h2 : n ≠ m := fun h => hmrest (h ▸ hn)
      have h3 : (n == m) = false := beq_eq_false_iff_ne.mpr h2
      simp [h1, List.lookup, h3, Option.orElse]
    have heq : reorderGo old acc (m :: rest)
        = reorderGo old (acc ++ [(m, ctl)]) rest := by
      simp [reorderGo, hctl, hds]
    obtain ⟨g1, g2, g3, g4⟩ := ih (acc ++ [(m, ctl)]) hnd2 hold2 hacc2
    refine ⟨heq ▸ g1, ?_, ?_, ?_⟩
    · rw [heq, g2]
      simp
    · intro n hn
      rcases List.mem_cons.mp hn with rfl | hn2
      · rw [heq]
        have hsome : (acc ++ [(n, ctl)]).lookup n = some ctl := by
          rw [lookup_append, haccm]
          simp [List.lookup, Option.orElse]
        rw [g4 n ctl hsome, hctl]
      · rw [heq]
        exact g3 n hn2
    · intro n v hv
      rw [heq]
      apply g4
      rw [lookup_append, hv]
      rfl

theorem reorderGo_missing (old : List (String × Ctl)) :
    ∀ (order : List String) (acc : List (String × Ctl)),
      (∃ n ∈ order, old.lookup n = none) →
      ∃ m, (reorderGo old acc order).1 = some (.keyError m)
        ∧ old.lookup m = none := by
  intro order
  induction order with
  | nil =>
    intro acc h
    obtain ⟨n, hn, _⟩ := h
    cases hn
  | cons a rest ih =>
    intro acc h
    cases hctl : old.lookup a with
    | none => exact ⟨a, by simp [reorderGo, hctl], hctl⟩
    | some ctl =>
      obtain ⟨n, hn, hnone⟩ := h
      rcases List.mem_cons.mp hn with rfl | hn2
      · rw [hctl] at hnone
        cases hnone
      · obtain ⟨m, hm1, hm2⟩ := ih (dictSet acc a ctl) ⟨n, hn2, hnone⟩
        exact ⟨m, by simpa [reorderGo, hctl] using hm1, hm2⟩

/-! ### Concrete fixtures -/

def abCluster : Cluster :=
  ⟨[("a", .numeric (.int 1)), ("b", .numeric (.int 2))]⟩

def abcCluster : Cluster :=
  ⟨[("a", .numeric (.int 1)), ("b", .numeric (.int 2)),
    ("c", .numeric (.int 3))]⟩

def xyCluster : Cluster :=
  ⟨[("x", .numeric (.float 0)), ("y", .boolean (.bool false))]⟩

def naCluster : Cluster :=
  ⟨[("a", .numeric (.float 1)), ("b", .boolean (.bool false))]⟩

/-! ### Claims -/

/-- C1 (counterexample): the uniform validation policy fails.  Ring stores
an invalid-shaped value (an empty tuple) without raising; a Cluster
positional assignment whose second member fails type validation raises no
error and leaves the first member changed; TabControl absorbs a write, so
set-then-get does not return the input. -/
theorem setter_policy_counterexample :
    Ctl.setValue (.ring ["a", "b"] (.int 0)) (.tuple [])
      = (none, .ring ["a", "b"] (.tuple []))
    ∧ (naCluster.setValue (.tuple [.float 2, .str "x"])).1 = none
    ∧ ((naCluster.setValue (.tuple [.float 2, .str "x"])).2).ctrls.lookup "a"
        = some (.numeric (.float 2))
    ∧ Ctl.setValue (.tab .pynone) (.int 5) = (none, .tab .pynone)
    ∧ PyVal.pynone ≠ PyVal.int 5 :=
  ⟨rfl, rfl, rfl, rfl, fun h => PyVal.noConfusion h⟩

/-- C1 (amended): for Numeric, Boolean, String, Enum and the IORefNum
family, setting `value` with a valid-shaped input succeeds and getting it
returns the (possibly normalized) input, while an invalid-shaped input
raises an error identifying the rejected value and leaves the stored value
unchanged; Ring validates only string inputs (resolved against `items`,
with a `ValueError` when absent). -/
theorem setter_validation_amended :
    (∀ cur v, isNumber v = true →
      (Ctl.setValue (.numeric cur) v).1 = none
      ∧ ((Ctl.setValue (.numeric cur) v).2).getValue = v)
    ∧ (∀ cur v, isNumber v = false →
      Ctl.setValue (.numeric cur) v
        = (some (.autoLVval v "not a number"), .numeric cur))
    ∧ (∀ cur v, isBool v = true →
      (Ctl.setValue (.boolean cur) v).1 = none
      ∧ ((Ctl.setValue (.boolean cur) v).2).getValue = v)
    ∧ (∀ cur v, isBool v = false →
      Ctl.setValue (.boolean cur) v
        = (some (.autoLVval v "not a boolean"), .boolean cur))
    ∧ (∀ cur v, isStr v = true →
      (Ctl.setValue (.string cur) v).1 = none
      ∧ ((Ctl.setValue (.string cur) v).2).getValue = v)
    ∧ (∀ cur v, isStr v = false →
      Ctl.setValue (.string cur) v
        = (some (.autoLVval v "not a string"), .string cur))
    ∧ (∀ cur n, Ctl.setValue (.enum cur) (.int n) = (none, .enum (.int n)))
    ∧ (∀ cur s n, pyParseInt s = some n →
      Ctl.setValue (.enum cur) (.str s) = (none, .enum (.int n)))
    ∧ (∀ cur s, pyParseInt s = none →
      Ctl.setValue (.enum cur) (.str s) = (some (.valueError s), .enum cur))
    ∧ (∀ cur s, Ctl.setValue (.iorefnum cur) (.str s)
        = (none, .iorefnum (.tuple [.str s, .int 0])))
    ∧ (∀ cur vs, Ctl.setValue (.iorefnum cur) (.tuple vs)
        = (none, .iorefnum (.tuple vs)))
    ∧ (∀ cur v, isStr v = false → (∀ vs, v ≠ .tuple vs) →
      Ctl.setValue (.iorefnum cur) v
        = (some (.autoLVval v "not a tuple of str and int"), .iorefnum cur))
    ∧ (∀ items cur s i, List.findIdx? (fun t => t == s) items = some i →
      Ctl.setValue (.ring items cur) (.str s) = (none, .ring items (.int i)))
    ∧ (∀ items cur s, List.findIdx? (fun t => t == s) items = none →
      Ctl.setValue (.ring items cur) (.str s)
        = (some (.valueError s), .ring items cur)) := by
  refine ⟨?_, ?_, ?_, ?_, ?_, ?_, ?_, ?_, ?_, ?_, ?_, ?_, ?_, ?_⟩
  · intro cur v h
    simp [Ctl.setValue, h, Ctl.getValue]
  · intro cur v h
    simp [Ctl.setValue, h]
  · intro cur v h
    simp [Ctl.setValue, h, Ctl.getValue]
  · intro cur v h
    simp [Ctl.setValue, h]
  · intro cur v h
    simp [Ctl.setValue, h, Ctl.getValue]
  · intro cur v h
    simp [Ctl.setValue, h]
  · intro cur n
    simp [Ctl.setValue, isInt]
  · intro cur s n h
    simp [Ctl.setValue, h]
  · intro cur s h
    simp [Ctl.setValue, h]
  · intro cur s
    simp [Ctl.setValue]
  · intro cur vs
    simp [Ctl.setValue]
  · intro cur v h1 h2
    match v with
    | .str s => simp [isStr] at h1
    | .tuple vs => exact absurd rfl (h2 vs)
    | .int n => simp [Ctl.setValue]
    | .float q => simp [Ctl.setValue]
    | .bool b => simp [Ctl.setValue]
    | .list vs => simp [Ctl.setValue]
    | .dict kvs => simp [Ctl.setValue]
    | .pynone => simp [Ctl.setValue]
  · intro items cur s i h
    simp [Ctl.setValue, h]
  · intro items cur s h
    simp [Ctl.setValue, h]

theorem setter_validation_amended_witness :
    (Ctl.setValue (.numeric (.float 0)) (.float 2)).1 = none
    ∧ Ctl.setValue (.numeric (.float 0)) (.str "a")
        = (some (.autoLVval (.str "a") "not a number"), .numeric (.float 0))
    ∧ (Ctl.setValue (.boolean (.bool false)) (.bool true)).1 = none
    ∧ Ctl.setValue (.boolean (.bool false)) (.int 1)
        = (some (.autoLVval (.int 1) "not a boolean"), .boolean (.bool false))
    ∧ (Ctl.setValue (.string (.str "")) (.str "a")).1 = none
    ∧ Ctl.setValue (.string (.str "")) (.int 1)
        = (some (.autoLVval (.int 1) "not a string"), .string (.str ""))
    ∧ Ctl.setValue (.enum (.int 0)) (.int 2) = (none, .enum (.int 2))
    ∧ Ctl.setValue (.enum (.int 0)) (.str "12") = (none, .enum (.int 12))
    ∧ Ctl.setValue (.enum (.int 0)) (.str "ab")
        = (some (.valueError "ab"), .enum (.int 0))
    ∧ Ctl.setValue (.iorefnum (.tuple [.str "", .int 0])) (.str "PXI1Slot1")
        = (none, .iorefnum (.tuple [.str "PXI1Slot1", .int 0]))
    ∧ Ctl.setValue (.iorefnum (.tuple [.str "", .int 0]))
          (.tuple [.str "x", .int 1])
        = (none, .iorefnum (.tuple [.str "x", .int 1]))
    ∧ Ctl.setValue (.iorefnum (.tuple [.str "", .int 0])) (.int 3)
        = (some (.autoLVval (.int 3) "not a tuple of str and int"),
           .iorefnum (.tuple [.str "", .int 0]))
    ∧ Ctl.setValue (.ring ["a", "b"] (.int 0)) (.str "b")
        = (none, .ring ["a", "b"] (.int 1))
    ∧ Ctl.setValue (.ring ["a", "b"] (.int 0)) (.str "z")
        = (some (.valueError "z"), .ring ["a", "b"] (.int 0)) := by
  obtain ⟨h1, h2, h3, h4, h5, h6, h7, h8, h9, h10, h11, h12, h13, h14⟩ :=
    setter_validation_amended
  exact ⟨(h1 (.float 0) (.float 2) rfl).1, h2 (.float 0) (.str "a") rfl,
    (h3 (.bool false) (.bool true) rfl).1, h4 (.bool false) (.int 1) rfl,
    (h5 (.str "") (.str "a") rfl).1, h6 (.str "") (.int 1) rfl,
    h7 (.int 0) 2, h8 (.int 0) "12" 12 rfl, h9 (.int 0) "ab" rfl,
    h10 (.tuple [.str "", .int 0]) "PXI1Slot1",
    h11 (.tuple [.str "", .int 0]) [.str "x", .int 1],
    h12 (.tuple [.str "", .int 0]) (.int 3) rfl (fun vs h => nomatch h),
    h13 ["a", "b"] (.int 0) "b" 1 rfl, h14 ["a", "b"] (.int 0) "z" rfl⟩

/-- C2 (counterexample): the repair preprocessor is not idempotent — on a
well-formed export fragment containing the empty-element marker `<LF>`, a
second run changes the first run's output. -/
theorem repair_not_idempotent :
    vistr2xml (vistr2xml (strChars "<CONTENT><LF></CONTENT>"))
      ≠ vistr2xml (strChars "<CONTENT><LF></CONTENT>") := by decide

/-- C2 (amended): one repair run closes the empty element (`<LF>` becomes
`<LF></LF>`), and re-running repair on that output appends one further
closing tag per marker occurrence instead of being a no-op. -/
theorem repair_second_run_appends_closers :
    vistr2xml (strChars "<CONTENT><LF></CONTENT>")
      = strChars "<CONTENT><LF></LF></CONTENT>"
    ∧ vistr2xml (strChars "<CONTENT><LF></LF></CONTENT>")
      = strChars "<CONTENT><LF></LF></LF></CONTENT>" :=
  ⟨by decide, by decide⟩

/-- C3 (counterexample): `reorder_controls` with a list omitting the
currently-present member `b` raises no error and silently drops `b`, so the
member set shrinks. -/
theorem reorder_silently_drops_members :
    (abCluster.reorder_controls ["a"]).1 = none
    ∧ ((abCluster.reorder_controls ["a"]).2).ctrls.map Prod.fst = ["a"]
    ∧ ((abCluster.reorder_controls ["a"]).2).ctrls.lookup "b" = none :=
  ⟨rfl, rfl, rfl⟩

/-- C3 (amended): `reorder_controls` accepts any duplicate-free list of
currently-present member names and replaces the internal order with exactly
that list, preserving each listed member's control; a name not currently
present raises a `KeyError`; omitting a present name is not an error — the
omitted member is silently dropped. -/
theorem reorder_accepts_present_names :
    (∀ (c : Cluster) (order : List String),
      order.Nodup →
      (∀ n ∈ order, (c.ctrls.lookup n).isSome) →
      (c.reorder_controls order).1 = none
      ∧ ((c.reorder_controls order).2).ctrls.map Prod.fst = order
      ∧ ∀ n ∈ order,
          ((c.reorder_controls order).2).ctrls.lookup n = c.ctrls.lookup n)
    ∧ (∀ (c : Cluster) (order : List String),
      (∃ n ∈ order, c.ctrls.lookup n = none) →
      ∃ m, (c.reorder_controls order).1 = some (.keyError m)
        ∧ c.ctrls.lookup m = none) := by
  constructor
  · intro c order hnd hold
    obtain ⟨g1, g2, g3, _⟩ :=
      reorderGo_ok c.ctrls order [] hnd hold (fun n _ => rfl)
    exact ⟨g1, by simpa using g2, g3⟩
  · intro c order hex
    exact reorderGo_missing c.ctrls order [] hex

theorem reorder_accepts_present_names_witness :
    (abCluster.reorder_controls ["b", "a"]).1 = none
    ∧ ((abCluster.reorder_controls ["b", "a"]).2).ctrls.map Prod.fst
        = ["b", "a"]
    ∧ (∃ m, (abCluster.reorder_controls ["z"]).1 = some (.keyError m)
        ∧ abCluster.ctrls.lookup m = none) := by
  obtain ⟨hok, hmiss⟩ := reorder_accepts_present_names
  obtain ⟨g1, g2, _⟩ := hok abCluster ["b", "a"] (by decide)
    (by intro n hn; fin_cases hn <;> rfl)
  exact ⟨g1, g2, hmiss abCluster ["z"] ⟨"z", List.mem_cons_self "z" [], rfl⟩⟩

/-- C4: a declared type string absent from the registry constructs the
`NotImplControl` variant, which reports `supported = false`; writing any
value to it raises nothing, and afterwards it still reports no value. -/
theorem unknown_type_unsupported :
    ∀ (control_type : String) (v w : PyVal),
      LVControl_LU.lookup control_type = none →
      make_control control_type = CtlKind.notimpl
      ∧ Ctl.supported (.notimpl w) = false
      ∧ (Ctl.setValue (.notimpl w) v).1 = none
      ∧ ((Ctl.setValue (.notimpl w) v).2).getValue = .pynone := by
  intro ty v w h
  exact ⟨by simp [make_control, h], rfl, rfl, rfl⟩

theorem unknown_type_unsupported_witness :
    make_control "Vendor Widget" = CtlKind.notimpl
    ∧ Ctl.supported (.notimpl .pynone) = false
    ∧ (Ctl.setValue (.notimpl .pynone) (.int 5)).1 = none
    ∧ ((Ctl.setValue (.notimpl .pynone) (.int 5)).2).getValue = .pynone :=
  unknown_type_unsupported "Vendor Widget" (.int 5) .pynone (by decide)

/-- C6: the cluster whole-value get returns member values as a tuple in
current member order; after reordering the `{a:1, b:2, c:3}` cluster to
`["c", "a", "b"]` the member-name order is exactly that list and every
member's value is unchanged. -/
theorem cluster_value_order_reorder :
    abcCluster.value = .tuple [.int 1, .int 2, .int 3]
    ∧ (abcCluster.reorder_controls ["c", "a", "b"]).1 = none
    ∧ ((abcCluster.reorder_controls ["c", "a", "b"]).2).ctrls.map Prod.fst
        = ["c", "a", "b"]
    ∧ ((abcCluster.reorder_controls ["c", "a", "b"]).2).value
        = .tuple [.int 3, .int 1, .int 2]
    ∧ ((abcCluster.reorder_controls ["c", "a", "b"]).2).ctrls.lookup "a"
        = some (.numeric (.int 1))
    ∧ ((abcCluster.reorder_controls ["c", "a", "b"]).2).ctrls.lookup "b"
        = some (.numeric (.int 2))
    ∧ ((abcCluster.reorder_controls ["c", "a", "b"]).2).ctrls.lookup "c"
        = some (.numeric (.int 3)) :=
  ⟨rfl, rfl, rfl, rfl, rfl, rfl, rfl⟩

/-- C8: assigning the name-keyed mapping `{x: 2.0, y: True}` to the
`{x: Numeric, y: Boolean}` cluster raises nothing and whole-value get then
yields `(2.0, True)` in declared order; assigning a mapping with an unknown
member name raises a `KeyError` and changes nothing. -/
theorem cluster_mapping_assignment :
    (xyCluster.setValue (.dict [("x", .float 2), ("y", .bool true)])).1 = none
    ∧ ((xyCluster.setValue (.dict [("x", .float 2), ("y", .bool true)])).2).value
        = .tuple [.float 2, .bool true]
    ∧ xyCluster.setValue (.dict [("z", .int 1)])
        = (some (.keyError "z"), xyCluster) :=
  ⟨rfl, rfl, rfl⟩

/-- C9: assigning `None` as a cluster's whole value raises no error and
leaves the cluster — members, values and order — unchanged. -/
theorem cluster_none_assignment_noop :
    ∀ c : Cluster, c.setValue .pynone = (none, c) :=
  fun _ => rfl

/-- C7: a read-only descriptive attribute populated from construction data
cannot be reassigned: once the attribute is present in the constructed
attribute dict, every assignment attempt raises `AutoLVError` and leaves
the dict unchanged. -/
theorem readonly_attribute_immutable :
    ∀ (kwargs d : List (String × PyVal)) (item : String) (v : PyVal),
      lvInit kwargs = .ok d →
      item ∈ READONLY_ATTRIBUTES →
      (d.lookup item).isSome →
      lvSetattr d item v = (some (.autoLVmsg ("cannot set " ++ item)), d) := by
  intro kwargs d item v _ hro hsome
  simp [lvSetattr, hro, hsome]

theorem readonly_attribute_immutable_witness :
    lvSetattr [("name", .str "x"), ("ID", .int 83), ("_dataflow", .int 3),
        ("_supported", .bool true), ("_value", .pynone)] "ID" (.int 99)
      = (some (.autoLVmsg ("cannot set " ++ "ID")),
         [("name", .str "x"), ("ID", .int 83), ("_dataflow", .int 3),
          ("_supported", .bool true), ("_value", .pynone)]) :=
  readonly_attribute_immutable
    [("name", PyVal.str "x"), ("ID", PyVal.int 83)]
    [("name", PyVal.str "x"), ("ID", PyVal.int 83), ("_dataflow", PyVal.int 3),
     ("_supported", PyVal.bool true), ("_value", PyVal.pynone)]
    "ID" (PyVal.int 99) rfl (by decide) rfl

/-- C10: read-only attributes are write-once, not construction-only: for a
control constructed without the attribute, a first later assignment
succeeds and stores the value, and only a subsequent reassignment raises
the immutability error. -/
theorem readonly_attribute_write_once :
    ∀ (kwargs d : List (String × PyVal)) (item : String) (v w : PyVal),
      lvInit kwargs = .ok d →
      item ∈ READONLY_ATTRIBUTES →
      d.lookup item = none →
      lvSetattr d item v = (none, d ++ [(item, v)])
      ∧ (d ++ [(item, v)]).lookup item = some v
      ∧ lvSetattr (d ++ [(item, v)]) item w
          = (some (.autoLVmsg ("cannot set " ++ item)), d ++ [(item, v)]) := by
  intro kwargs d item v w _ hro hnone
  have hlook : (d ++ [(item, v)]).lookup item = some v := by
    rw [lookup_append, hnone]
    simp [List.lookup, Option.orElse]
  refine ⟨?_, hlook, ?_⟩
  · simp [lvSetattr, hnone, dictSet]
  · simp [lvSetattr, hlook, hro]

theorem readonly_attribute_write_once_witness :
    lvSetattr [("name", .str "x"), ("_dataflow", .int 3),
        ("_supported", .bool true), ("_value", .pynone)] "caption" (.str "Cap")
      = (none, [("name", .str "x"), ("_dataflow", .int 3),
          ("_supported", .bool true), ("_value", .pynone)]
          ++ [("caption", .str "Cap")])
    ∧ (([("name", PyVal.str "x"), ("_dataflow", PyVal.int 3),
        ("_supported", PyVal.bool true), ("_value", PyVal.pynone)]
        ++ [("caption", PyVal.str "Cap")]).lookup "caption")
        = some (PyVal.str "Cap")
    ∧ lvSetattr ([("name", .str "x"), ("_dataflow", .int 3),
          ("_supported", .bool true), ("_value", .pynone)]
          ++ [("caption", .str "Cap")]) "caption" (.str "Other")
        = (some (.autoLVmsg ("cannot set " ++ "caption")),
           [("name", .str "x"), ("_dataflow", .int 3),
            ("_supported", .bool true), ("_value", .pynone)]
            ++ [("caption", .str "Cap")]) :=
  readonly_attribute_write_once [("name", PyVal.str "x")]
    [("name", PyVal.str "x"), ("_dataflow", PyVal.int 3),
     ("_supported", PyVal.bool true), ("_value", PyVal.pynone)]
    "caption" (PyVal.str "Cap") (PyVal.str "Other") rfl (by decide) rfl

end AutoLV


